import Mathlib

/-!
Shallow embedding of the file-intake and promotion workflow of the repository
(src/src/Pipelines/functions/v2_registrar_archivo.py and
src/src/Pipelines/functions/tabla_temporal.py).  External services (BigQuery,
Cloud Storage, pandas) are modelled by the outcomes of their calls, passed in
as explicit arguments; the effects of each function (blob reads, decode
attempts, printed warnings and errors, table inserts) are returned as an
explicit trace of events.
-/

namespace ProyectoFinal

/-- Decoded row of a file: a list of field-value pairs.  Models the Python
dict records produced by the decoders. -/
abbrev Record := List (String × String)

/-- Boolean model of the Python test name.endswith(suf), computed over the
character data of the strings. -/
def terminaEn (s suf : String) : Bool := suf.data.isSuffixOf s.data

/-- Observable effects of the pipeline functions: blob reads, decode
attempts, printed warnings, table inserts and printed error or success
messages. -/
inductive Event where
  | read (archivo : String)
  | decodeAttempt (archivo : String)
  | warnDirectory (archivo : String)
  | warnUnsupported (archivo : String)
  | insert (archivo : String) (rows : List Record)
  | loadSuccess (archivo : String)
  | logError (archivo : String) (msg : String)
  | ledgerInsert (rows : List (String × String))
  | logSuccess
  deriving DecidableEq

/-- Name of the object an event refers to (empty for ledger-level events). -/
def nombreDe : Event → String
  | .read a => a
  | .decodeAttempt a => a
  | .warnDirectory a => a
  | .warnUnsupported a => a
  | .insert a _ => a
  | .loadSuccess a => a
  | .logError a _ => a
  | .ledgerInsert _ => ""
  | .logSuccess => ""

/-- Whether an event reads, decodes or loads an object as a file. -/
def esAcceso : Event → Bool
  | .read _ => true
  | .decodeAttempt _ => true
  | .insert _ _ => true
  | _ => false

/-- Result of a loader call: the trace of effects plus the exception
propagated to the caller, if any (none means the function returned
normally). -/
structure LoaderResult where
  events : List Event
  raised : Option String
  deriving DecidableEq

/-- Model of obtener_archivos_nuevos (v2_registrar_archivo.py, lines 4-42).
The two external calls are modelled by their outcomes: ledger is the result
of the query over archivos_procesados and listing the result of list_blobs
over the bucket.  The whole body runs inside try/except returning [] on any
error, so the model is total and returns [] when either external call
fails; on success it keeps, in listing order, the listed names that are not
among the processed ones.  No directory-marker filtering is performed. -/
def obtener_archivos_nuevos (ledger listing : Except String (List String)) : List String :=
  match ledger with
  | .error _ => []
  | .ok archivos_procesados =>
    match listing with
    | .error _ => []
    | .ok archivos => archivos.filter (fun archivo => !(archivos_procesados.contains archivo))

/-- Model of obtener_archivos_nuevos_version_premium (v2_registrar_archivo.py,
lines 76-99).  There is no try/except, so a failing external call
propagates; the listing is filtered to drop names ending in a slash before
the set difference against the processed names. -/
def obtener_archivos_nuevos_version_premium (ledger listing : Except String (List String)) :
    Except String (List String) := do
  let archivos_procesados ← ledger
  let blobs ← listing
  let archivos := blobs.filter (fun archivo => !(terminaEn archivo "/"))
  pure (archivos.filter (fun archivo => !(archivos_procesados.contains archivo)))

/-- Model of registrar_archivos_en_bq (v2_registrar_archivo.py, lines 45-73).
now is the timestamp used for every row; insertResult is the outcome of
client.insert_rows_json, .error e when the client raises and .ok errs when
it returns the (possibly empty) list of row errors.  The body runs inside a
try/except that only prints, so the second component, the exception
propagated to the caller, is always none. -/
def registrar_archivos_en_bq (now : String) (insertResult : Except String (List String))
    (archivos_nuevos : List String) : List Event × Option String :=
  if archivos_nuevos.isEmpty then ([], none)
  else
    let rows := archivos_nuevos.map (fun archivo => (archivo, now))
    match insertResult with
    | .error e => ([.logError "registrar_archivos_en_bq" e], none)
    | .ok errs =>
      if errs.isEmpty then ([.ledgerInsert rows, .logSuccess], none)
      else ([.ledgerInsert rows, .logError "registrar_archivos_en_bq" "insert"], none)

/-- Model of the external call pd.read_json(contenido, lines=True) used by
the plain loader.  The payload is given as its list of source lines and
parse as the JSON parse of one line (none when the line is not a valid JSON
object).  The call succeeds iff every line parses, returning one record per
line in order, and raises otherwise. -/
def pd_read_json_lines (parse : String → Option Record) (lineas : List String) :
    Except String (List Record) :=
  if lineas.all (fun linea => (parse linea).isSome) then .ok (lineas.filterMap parse)
  else .error "Trailing data"

/-- One iteration of the loop of cargar_archivos_en_tabla_temporal
(tabla_temporal.py, lines 56-82): download the blob, decode it as
newline-delimited JSON, raise ValueError on an empty frame, otherwise load
the frame into the staging table; every exception is caught by the
per-object except clauses and only printed, so each branch simply reports
its events.  contenido gives the lines of each object and loadOk the
outcome of the load job. -/
def procesar_archivo (parse : String → Option Record) (contenido : String → List String)
    (loadOk : String → Bool) (archivo : String) : List Event :=
  match pd_read_json_lines parse (contenido archivo) with
  | .error _ => [.read archivo, .decodeAttempt archivo, .logError archivo "json"]
  | .ok df =>
    if df.isEmpty then [.read archivo, .decodeAttempt archivo, .logError archivo "vacio"]
    else if loadOk archivo then
      [.read archivo, .decodeAttempt archivo, .insert archivo df, .loadSuccess archivo]
    else [.read archivo, .decodeAttempt archivo, .insert archivo df, .logError archivo "carga"]

/-- The for-loop of cargar_archivos_en_tabla_temporal over the file list. -/
def cargar_archivos_go (parse : String → Option Record) (contenido : String → List String)
    (loadOk : String → Bool) : List String → List Event
  | [] => []
  | archivo :: rest =>
    procesar_archivo parse contenido loadOk archivo ++
      cargar_archivos_go parse contenido loadOk rest

/-- Model of cargar_archivos_en_tabla_temporal (tabla_temporal.py, lines
37-85).  The per-object try/except swallows every failure, so the function
never propagates an exception: raised is always none.  (The initial
TypeError check on the argument is made vacuous by the typing of the
model.) -/
def cargar_archivos_en_tabla_temporal (parse : String → Option Record)
    (contenido : String → List String) (loadOk : String → Bool)
    (archivos : List String) : LoaderResult :=
  ⟨cargar_archivos_go parse contenido loadOk archivos, none⟩

/-- Contents of the staging (temp) and final tables. -/
structure TablasEstado where
  temp : List Record
  final : List Record
  deriving DecidableEq

/-- Model of mover_datos_y_borrar_temp (tabla_temporal.py, lines 90-122):
run INSERT INTO final SELECT * FROM temp, then delete the staging table.
queryOk and deleteOk are the outcomes of the two client calls; the function
has no try/except, so a failing call propagates (first component none) and
the later steps do not run. -/
def mover_datos_y_borrar_temp (temp_table final_table : String) (queryOk deleteOk : Bool)
    (s : TablasEstado) : Option String × TablasEstado :=
  if queryOk then
    let copiado : TablasEstado := ⟨s.temp, s.final ++ s.temp⟩
    if deleteOk then
      (some ("Datos movidos a " ++ final_table ++ " y tabla temporal " ++ temp_table ++
        " eliminada."), ⟨[], copiado.final⟩)
    else (none, copiado)
  else (none, s)

/-- Outcome of json.loads on a downloaded payload in the premium loader: a
list of objects, some other JSON value, or a decode failure. -/
inductive JsonLoadsR where
  | okList (records : List Record)
  | okOtro
  | falla
  deriving DecidableEq

/-- The insert step shared by the three format branches of the premium
loader: insert_rows_json followed by the errors check, which raises
RuntimeError when the returned error list is nonempty (re-raised by the
per-object except clause). -/
def insertar_premium (insertOk : String → Bool) (archivo : String) (datos : List Record) :
    List Event × Option String :=
  if insertOk archivo then
    ([.read archivo, .decodeAttempt archivo, .insert archivo datos, .loadSuccess archivo], none)
  else
    ([.read archivo, .decodeAttempt archivo, .insert archivo datos, .logError archivo "insert"],
      some "insert")

/-- One iteration of the loop of cargar_archivos_en_tabla_temporal_v_premium
(tabla_temporal.py, lines 150-196): skip names ending in a slash, dispatch
on the name suffix (.json, .parquet, .pkl, otherwise unsupported), decode
and insert; the per-object except clause prints the error and re-raises it
(second component some).  jsonLoads gives the outcome of json.loads for
each .json object and readTable the outcome of pd.read_parquet or
pd.read_pickle for the binary formats.  Names with an unsupported suffix
are skipped with a printed warning before any download. -/
def paso_premium (jsonLoads : String → JsonLoadsR) (readTable : String → Option (List Record))
    (insertOk : String → Bool) (archivo : String) : List Event × Option String :=
  if terminaEn archivo "/" then ([.warnDirectory archivo], none)
  else if terminaEn archivo ".json" then
    match jsonLoads archivo with
    | .falla => ([.read archivo, .decodeAttempt archivo, .logError archivo "json invalido"],
        some "json invalido")
    | .okOtro => ([.read archivo, .decodeAttempt archivo, .logError archivo "no array"],
        some "no array")
    | .okList datos => insertar_premium insertOk archivo datos
  else if terminaEn archivo ".parquet" then
    match readTable archivo with
    | none => ([.read archivo, .decodeAttempt archivo, .logError archivo "parquet"],
        some "parquet")
    | some datos => insertar_premium insertOk archivo datos
  else if terminaEn archivo ".pkl" then
    match readTable archivo with
    | none => ([.read archivo, .decodeAttempt archivo, .logError archivo "pkl"], some "pkl")
    | some datos => insertar_premium insertOk archivo datos
  else ([.warnUnsupported archivo], none)

/-- The for-loop of the premium loader: a re-raised per-object error aborts
the remaining iterations. -/
def cargar_premium_go (jsonLoads : String → JsonLoadsR)
    (readTable : String → Option (List Record)) (insertOk : String → Bool) :
    List String → List Event × Option String
  | [] => ([], none)
  | archivo :: rest =>
    let r := paso_premium jsonLoads readTable insertOk archivo
    match r.2 with
    | some e => (r.1, some e)
    | none =>
      let r2 := cargar_premium_go jsonLoads readTable insertOk rest
      (r.1 ++ r2.1, r2.2)

/-- Model of cargar_archivos_en_tabla_temporal_v_premium (tabla_temporal.py,
lines 128-196): an empty file list raises ValueError up front; otherwise
the loop runs until it finishes or the first per-object error is
re-raised. -/
def cargar_archivos_en_tabla_temporal_v_premium (jsonLoads : String → JsonLoadsR)
    (readTable : String → Option (List Record)) (insertOk : String → Bool)
    (archivos : List String) : LoaderResult :=
  if archivos.isEmpty then ⟨[], some "lista de archivos no valida o vacia"⟩
  else
    let r := cargar_premium_go jsonLoads readTable insertOk archivos
    ⟨r.1, r.2⟩

/-! Helper lemmas about the loaders' traces. -/

/-- Every event produced by one iteration of the plain loader names the
object of that iteration. -/
theorem nombre_procesar_archivo (parse : String → Option Record)
    (contenido : String → List String) (loadOk : String → Bool) (archivo : String) :
    ∀ e ∈ procesar_archivo parse contenido loadOk archivo, nombreDe e = archivo := by
  intro e he
  unfold procesar_archivo at he
  rcases hd : pd_read_json_lines parse (contenido archivo) with msg | df <;> rw [hd] at he
  · simp only [List.mem_cons, List.not_mem_nil, or_false] at he
    rcases he with rfl | rfl | rfl <;> rfl
  · by_cases hE : df.isEmpty <;> simp only [hE] at he
    · simp only [if_true, List.mem_cons, List.not_mem_nil, or_false] at he
      rcases he with rfl | rfl | rfl <;> rfl
    · by_cases hL : loadOk archivo <;>
        simp only [hL, if_true, if_false, Bool.false_eq_true, List.mem_cons,
          List.not_mem_nil, or_false] at he <;>
        (rcases he with rfl | rfl | rfl | rfl <;> rfl)

/-- The plain loader always records a decode attempt for each object. -/
theorem decode_mem_procesar_archivo (parse : String → Option Record)
    (contenido : String → List String) (loadOk : String → Bool) (archivo : String) :
    Event.decodeAttempt archivo ∈ procesar_archivo parse contenido loadOk archivo := by
  unfold procesar_archivo
  rcases hd : pd_read_json_lines parse (contenido archivo) with msg | df
  · simp
  · by_cases hE : df.isEmpty <;> by_cases hL : loadOk archivo <;> simp [hE, hL]

/-- An event of the plain loader's trace comes from one of the listed
objects. -/
theorem mem_cargar_archivos_go (parse : String → Option Record)
    (contenido : String → List String) (loadOk : String → Bool) :
    ∀ (archivos : List String) (e : Event),
      e ∈ cargar_archivos_go parse contenido loadOk archivos →
      ∃ a ∈ archivos, e ∈ procesar_archivo parse contenido loadOk a := by
  intro archivos
  induction archivos with
  | nil => intro e he; simp [cargar_archivos_go] at he
  | cons a rest ih =>
    intro e he
    simp only [cargar_archivos_go, List.mem_append] at he
    rcases he with h | h
    · exact ⟨a, by simp, h⟩
    · obtain ⟨b, hb, hbe⟩ := ih e h
      exact ⟨b, by simp [hb], hbe⟩

/-- Conversely, the trace of the plain loader contains the events of every
listed object. -/
theorem mem_go_of_mem_procesar (parse : String → Option Record)
    (contenido : String → List String) (loadOk : String → Bool) :
    ∀ (archivos : List String) (a : String) (e : Event), a ∈ archivos →
      e ∈ procesar_archivo parse contenido loadOk a →
      e ∈ cargar_archivos_go parse contenido loadOk archivos := by
  intro archivos
  induction archivos with
  | nil => intro a e ha; simp at ha
  | cons b rest ih =>
    intro a e ha he
    simp only [List.mem_cons] at ha
    simp only [cargar_archivos_go, List.mem_append]
    rcases ha with rfl | ha
    · exact Or.inl he
    · exact Or.inr (ih a e ha he)

/-! Claim theorems. -/

/-- C1: on a successful run, the intake filter returns exactly the listed
names that are not in the ledger: the result is a sublist of the listing
(the original relative order), a name is in the result iff it is listed and
not in the ledger, the result is disjoint from the ledger, and an empty
listing gives an empty result; on listings without directory markers the
premium variant returns the same list. -/
theorem intake_filter_diferencia (A B : List String) :
    (obtener_archivos_nuevos (.ok B) (.ok A)).Sublist A ∧
    (∀ a, a ∈ obtener_archivos_nuevos (.ok B) (.ok A) ↔ a ∈ A ∧ a ∉ B) ∧
    (∀ b ∈ B, b ∉ obtener_archivos_nuevos (.ok B) (.ok A)) ∧
    (A = [] → obtener_archivos_nuevos (.ok B) (.ok A) = []) ∧
    ((∀ a ∈ A, terminaEn a "/" = false) →
      obtener_archivos_nuevos_version_premium (.ok B) (.ok A) =
        .ok (obtener_archivos_nuevos (.ok B) (.ok A))) := by
  have hmem : ∀ a, a ∈ obtener_archivos_nuevos (.ok B) (.ok A) ↔ a ∈ A ∧ a ∉ B := by
    intro a
    simp [obtener_archivos_nuevos, List.mem_filter]
  refine ⟨List.filter_sublist A, hmem, ?_, ?_, ?_⟩
  · intro b hb hmem2
    exact ((hmem b).mp hmem2).2 hb
  · rintro rfl
    rfl
  · intro hA
    have hfil : A.filter (fun archivo => !(terminaEn archivo "/")) = A := by
      apply List.filter_eq_self.mpr
      intro a ha
      simp [hA a ha]
    show Except.ok (List.filter _ (A.filter fun archivo => !(terminaEn archivo "/"))) = _
    rw [hfil]
    rfl

/-- Witness for C1 at a concrete listing and ledger. -/
theorem intake_filter_diferencia_witness :
    ("a.json" ∈ obtener_archivos_nuevos (.ok ["b.json"]) (.ok ["a.json", "b.json"])) ∧
    obtener_archivos_nuevos_version_premium (.ok ["b.json"]) (.ok ["a.json", "b.json"]) =
      .ok (obtener_archivos_nuevos (.ok ["b.json"]) (.ok ["a.json", "b.json"])) :=
  ⟨((intake_filter_diferencia ["a.json", "b.json"] ["b.json"]).2.1 "a.json").mpr (by decide),
    (intake_filter_diferencia ["a.json", "b.json"] ["b.json"]).2.2.2.2 (by decide)⟩

/-- C2: the promotion step is all-or-nothing with respect to staging
clearance: when it fails (propagates an exception) the staging table is
left untouched, and when it reports success the staging table is deleted
and the final table has grown by exactly the staging row count at call
time. -/
theorem mover_datos_todo_o_nada (temp_table final_table : String) (queryOk deleteOk : Bool)
    (s : TablasEstado) :
    ((mover_datos_y_borrar_temp temp_table final_table queryOk deleteOk s).1 = none →
      (mover_datos_y_borrar_temp temp_table final_table queryOk deleteOk s).2.temp = s.temp) ∧
    (∀ m, (mover_datos_y_borrar_temp temp_table final_table queryOk deleteOk s).1 = some m →
      (mover_datos_y_borrar_temp temp_table final_table queryOk deleteOk s).2.temp = [] ∧
      (mover_datos_y_borrar_temp temp_table final_table queryOk deleteOk s).2.final.length =
        s.final.length + s.temp.length) := by
  cases queryOk <;> cases deleteOk <;> simp [mover_datos_y_borrar_temp]

/-- Witness for C2 at a concrete one-row staging table. -/
theorem mover_datos_todo_o_nada_witness :
    (mover_datos_y_borrar_temp "tmp" "fin" true true ⟨[[("a", "1")]], []⟩).2.temp = [] ∧
    (mover_datos_y_borrar_temp "tmp" "fin" true true ⟨[[("a", "1")]], []⟩).2.final.length =
      ([] : List Record).length + [[("a", "1")]].length :=
  (mover_datos_todo_o_nada "tmp" "fin" true true ⟨[[("a", "1")]], []⟩).2
    "Datos movidos a fin y tabla temporal tmp eliminada." rfl

/-- C10: whenever an external call inside the non-premium intake fails, the
function returns the empty list rather than propagating the error, and a
successful run over an empty listing returns the same empty list, so the
caller cannot tell an intake failure from a run with no new objects. -/
theorem obtener_archivos_nuevos_error_vacia :
    (∀ (e : String) (listing : Except String (List String)),
      obtener_archivos_nuevos (.error e) listing = []) ∧
    (∀ (ledger : Except String (List String)) (e : String),
      obtener_archivos_nuevos ledger (.error e) = []) ∧
    (∀ B : List String, obtener_archivos_nuevos (.ok B) (.ok []) = []) := by
  refine ⟨fun e listing => rfl, fun ledger e => ?_, fun B => rfl⟩
  cases ledger <;> rfl

/-- A name ending in a slash is skipped by the premium loader with only a
printed warning and no error. -/
theorem paso_premium_directorio (jsonLoads : String → JsonLoadsR)
    (readTable : String → Option (List Record)) (insertOk : String → Bool) (archivo : String)
    (h : terminaEn archivo "/" = true) :
    paso_premium jsonLoads readTable insertOk archivo = ([.warnDirectory archivo], none) := by
  simp [paso_premium, h]

/-- Every event produced by one iteration of the premium loader names the
object of that iteration. -/
theorem nombre_paso_premium (jsonLoads : String → JsonLoadsR)
    (readTable : String → Option (List Record)) (insertOk : String → Bool) (archivo : String) :
    ∀ e ∈ (paso_premium jsonLoads readTable insertOk archivo).1, nombreDe e = archivo := by
  intro e he
  unfold paso_premium insertar_premium at he
  by_cases h1 : terminaEn archivo "/"
  · simp only [h1, if_true, List.mem_cons, List.not_mem_nil, or_false] at he
    subst he; rfl
  · simp only [h1, Bool.false_eq_true, if_false] at he
    by_cases h2 : terminaEn archivo ".json"
    · simp only [h2, if_true] at he
      rcases hj : jsonLoads archivo with datos | _ | _ <;> rw [hj] at he <;>
        by_cases hI : insertOk archivo <;>
        simp only [hI, if_true, Bool.false_eq_true, if_false, List.mem_cons,
          List.not_mem_nil, or_false] at he <;>
        (rcases he with rfl | rfl | rfl | rfl <;> rfl)
    · simp only [h2, Bool.false_eq_true, if_false] at he
      by_cases h3 : terminaEn archivo ".parquet"
      · simp only [h3, if_true] at he
        rcases hr : readTable archivo with _ | datos <;> rw [hr] at he <;>
          by_cases hI : insertOk archivo <;>
          simp only [hI, if_true, Bool.false_eq_true, if_false, List.mem_cons,
            List.not_mem_nil, or_false] at he <;>
          (rcases he with rfl | rfl | rfl | rfl <;> rfl)
      · simp only [h3, Bool.false_eq_true, if_false] at he
        by_cases h4 : terminaEn archivo ".pkl"
        · simp only [h4, if_true] at he
          rcases hr : readTable archivo with _ | datos <;> rw [hr] at he <;>
            by_cases hI : insertOk archivo <;>
            simp only [hI, if_true, Bool.false_eq_true, if_false, List.mem_cons,
              List.not_mem_nil, or_false] at he <;>
            (rcases he with rfl | rfl | rfl | rfl <;> rfl)
        · simp only [h4, Bool.false_eq_true, if_false, List.mem_cons,
            List.not_mem_nil, or_false] at he
          subst he; rfl

/-- An event of the premium loader's trace comes from one of the listed
objects. -/
theorem mem_cargar_premium_go (jsonLoads : String → JsonLoadsR)
    (readTable : String → Option (List Record)) (insertOk : String → Bool) :
    ∀ (archivos : List String) (e : Event),
      e ∈ (cargar_premium_go jsonLoads readTable insertOk archivos).1 →
      ∃ a ∈ archivos, e ∈ (paso_premium jsonLoads readTable insertOk a).1 := by
  intro archivos
  induction archivos with
  | nil => intro e he; simp [cargar_premium_go] at he
  | cons a rest ih =>
    intro e he
    simp only [cargar_premium_go] at he
    rcases h2 : (paso_premium jsonLoads readTable insertOk a).2 with _ | err <;>
      simp only [h2] at he
    · simp only [List.mem_append] at he
      rcases he with h | h
      · exact ⟨a, by simp, h⟩
      · obtain ⟨b, hb, hbe⟩ := ih e h
        exact ⟨b, by simp [hb], hbe⟩
    · exact ⟨a, by simp, he⟩

/-- C3 counterexample: the non-premium intake variant does not exclude
directory markers: with an empty ledger, the listing consisting of the
single name folder/ is returned as new even though it ends in the
separator, so a trailing-slash name can appear in the new-objects result. -/
theorem obtener_archivos_nuevos_devuelve_directorio :
    obtener_archivos_nuevos (.ok []) (.ok ["folder/"]) = ["folder/"] ∧
    terminaEn "folder/" "/" = true := by
  exact ⟨rfl, by decide⟩

/-- C3 (amended): in the premium intake variant every name ending in the
separator is excluded from the result, and in the premium loader no such
name is ever read, decoded or inserted; the non-premium intake variant
performs no such exclusion. -/
theorem premium_excluye_directorios :
    (∀ (A B r : List String),
      obtener_archivos_nuevos_version_premium (.ok B) (.ok A) = .ok r →
      ∀ a ∈ r, terminaEn a "/" = false) ∧
    (∀ (jsonLoads : String → JsonLoadsR) (readTable : String → Option (List Record))
      (insertOk : String → Bool) (archivos : List String) (e : Event),
      e ∈ (cargar_archivos_en_tabla_temporal_v_premium jsonLoads readTable insertOk
        archivos).events →
      esAcceso e = true → terminaEn (nombreDe e) "/" = false) := by
  constructor
  · intro A B r hr a ha
    have hred : obtener_archivos_nuevos_version_premium (.ok B) (.ok A) =
        Except.ok ((A.filter fun archivo => !(terminaEn archivo "/")).filter
          (fun archivo => !(B.contains archivo))) := rfl
    rw [hred] at hr
    have : r = (A.filter fun archivo => !(terminaEn archivo "/")).filter
        (fun archivo => !(B.contains archivo)) := (Except.ok.inj hr).symm
    rw [this] at ha
    have ha2 := (List.mem_filter.mp ha).1
    have := (List.mem_filter.mp ha2).2
    simpa using this
  · intro jsonLoads readTable insertOk archivos e he hacc
    unfold cargar_archivos_en_tabla_temporal_v_premium at he
    by_cases hA : archivos.isEmpty
    · simp [hA] at he
    · simp only [hA, Bool.false_eq_true, if_false] at he
      obtain ⟨a, _, hpa⟩ := mem_cargar_premium_go jsonLoads readTable insertOk archivos e he
      by_cases hdir : terminaEn a "/"
      · rw [paso_premium_directorio jsonLoads readTable insertOk a hdir] at hpa
        simp only [List.mem_cons, List.not_mem_nil, or_false] at hpa
        subst hpa
        simp [esAcceso] at hacc
      · have hn := nombre_paso_premium jsonLoads readTable insertOk a e hpa
        rw [hn]
        simpa using hdir

/-- Witness for C3: concrete runs of the premium intake and loader in which
the conclusions are discharged. -/
theorem premium_excluye_directorios_witness :
    terminaEn "a.json" "/" = false ∧ terminaEn "b.json" "/" = false :=
  ⟨premium_excluye_directorios.1 ["a.json"] [] ["a.json"] rfl "a.json" (by decide),
    premium_excluye_directorios.2 (fun _ => .okList []) (fun _ => none) (fun _ => true)
      ["b.json"] (Event.read "b.json") (by decide) rfl⟩

/-- Shape of one plain-loader iteration when the JSON decode fails. -/
theorem procesar_archivo_error_decodificacion (parse : String → Option Record)
    (contenido : String → List String) (loadOk : String → Bool) (archivo : String)
    (msg : String) (hd : pd_read_json_lines parse (contenido archivo) = .error msg) :
    procesar_archivo parse contenido loadOk archivo =
      [.read archivo, .decodeAttempt archivo, .logError archivo "json"] := by
  simp [procesar_archivo, hd]

/-- Shape of one plain-loader iteration when the decode yields no records. -/
theorem procesar_archivo_sin_registros (parse : String → Option Record)
    (contenido : String → List String) (loadOk : String → Bool) (archivo : String)
    (hd : pd_read_json_lines parse (contenido archivo) = .ok []) :
    procesar_archivo parse contenido loadOk archivo =
      [.read archivo, .decodeAttempt archivo, .logError archivo "vacio"] := by
  simp [procesar_archivo, hd]

/-- C4 counterexample: on the plain-JSON path a payload that is not valid
JSON does not raise any error to the caller: the loader returns normally
(raised is none) and merely prints the per-object error. -/
theorem plain_no_propaga_error_decodificacion :
    (cargar_archivos_en_tabla_temporal (fun _ => none) (fun _ => ["basura"]) (fun _ => true)
      ["malo.json"]).raised = none ∧
    (cargar_archivos_en_tabla_temporal (fun _ => none) (fun _ => ["basura"]) (fun _ => true)
      ["malo.json"]).events =
      [.read "malo.json", .decodeAttempt "malo.json", .logError "malo.json" "json"] := by
  exact ⟨rfl, rfl⟩

/-- C4 (amended): for a payload that is not valid JSON, zero records from
that object are loaded into the staging table on both paths; the premium
path propagates the decode error to the caller, while the plain path logs
it per object and returns normally. -/
theorem decodificacion_invalida (parse : String → Option Record)
    (contenido : String → List String) (loadOk : String → Bool)
    (jsonLoads : String → JsonLoadsR) (readTable : String → Option (List Record))
    (insertOk : String → Bool) (archivos : List String) (archivo : String)
    (rest : List String) :
    (∀ msg, archivo ∈ archivos → pd_read_json_lines parse (contenido archivo) = .error msg →
      (∀ rows, Event.insert archivo rows ∉
        (cargar_archivos_en_tabla_temporal parse contenido loadOk archivos).events) ∧
      (cargar_archivos_en_tabla_temporal parse contenido loadOk archivos).raised = none ∧
      Event.logError archivo "json" ∈
        (cargar_archivos_en_tabla_temporal parse contenido loadOk archivos).events) ∧
    (terminaEn archivo "/" = false → terminaEn archivo ".json" = true →
      jsonLoads archivo = JsonLoadsR.falla →
      cargar_archivos_en_tabla_temporal_v_premium jsonLoads readTable insertOk
        (archivo :: rest) =
        ⟨[.read archivo, .decodeAttempt archivo, .logError archivo "json invalido"],
          some "json invalido"⟩) := by
  constructor
  · intro msg hmem hd
    refine ⟨?_, rfl, ?_⟩
    · intro rows hmem2
      obtain ⟨b, hb, hbe⟩ :=
        mem_cargar_archivos_go parse contenido loadOk archivos _ hmem2
      have hn := nombre_procesar_archivo parse contenido loadOk b _ hbe
      simp only [nombreDe] at hn
      subst hn
      rw [procesar_archivo_error_decodificacion parse contenido loadOk archivo msg hd] at hbe
      simp at hbe
    · apply mem_go_of_mem_procesar parse contenido loadOk archivos archivo _ hmem
      rw [procesar_archivo_error_decodificacion parse contenido loadOk archivo msg hd]
      simp
  · intro h1 h2 h3
    simp [cargar_archivos_en_tabla_temporal_v_premium, cargar_premium_go, paso_premium,
      h1, h2, h3]

/-- Witness for C4 at one malformed object on each path. -/
theorem decodificacion_invalida_witness :
    (Event.insert "m.json" [] ∉
      (cargar_archivos_en_tabla_temporal (fun _ => none) (fun _ => ["x"]) (fun _ => true)
        ["m.json"]).events) ∧
    cargar_archivos_en_tabla_temporal_v_premium (fun _ => JsonLoadsR.falla) (fun _ => none)
      (fun _ => true) ["m.json"] =
      ⟨[.read "m.json", .decodeAttempt "m.json", .logError "m.json" "json invalido"],
        some "json invalido"⟩ :=
  ⟨((decodificacion_invalida (fun _ => none) (fun _ => ["x"]) (fun _ => true)
      (fun _ => JsonLoadsR.falla) (fun _ => none) (fun _ => true) ["m.json"] "m.json" []).1
      "Trailing data" (by decide) rfl).1 [],
    (decodificacion_invalida (fun _ => none) (fun _ => ["x"]) (fun _ => true)
      (fun _ => JsonLoadsR.falla) (fun _ => none) (fun _ => true) ["m.json"] "m.json" []).2
      (by decide) (by decide) rfl⟩

/-- C5 counterexample: on the premium path an object that decodes to zero
records is not skipped and no warning is printed: the empty batch is passed
to the insert call and the loader reports success for the object. -/
theorem premium_inserta_vacio_sin_aviso :
    cargar_archivos_en_tabla_temporal_v_premium (fun _ => JsonLoadsR.okList []) (fun _ => none)
      (fun _ => true) ["vacio.json"] =
      ⟨[.read "vacio.json", .decodeAttempt "vacio.json", .insert "vacio.json" [],
        .loadSuccess "vacio.json"], none⟩ ∧
    Event.warnDirectory "vacio.json" ∉
      (cargar_archivos_en_tabla_temporal_v_premium (fun _ => JsonLoadsR.okList [])
        (fun _ => none) (fun _ => true) ["vacio.json"]).events ∧
    Event.warnUnsupported "vacio.json" ∉
      (cargar_archivos_en_tabla_temporal_v_premium (fun _ => JsonLoadsR.okList [])
        (fun _ => none) (fun _ => true) ["vacio.json"]).events := by
  exact ⟨rfl, by decide, by decide⟩

/-- C5 (amended): an object that decodes to zero records is an error
condition on the plain path (the object is reported as an error and
nothing is inserted for it), while on the premium path it is tolerated
without any warning: the empty batch is inserted (zero rows) and the run
continues with the remaining objects. -/
theorem carga_vacia_dos_politicas (parse : String → Option Record)
    (contenido : String → List String) (loadOk : String → Bool)
    (jsonLoads : String → JsonLoadsR) (readTable : String → Option (List Record))
    (insertOk : String → Bool) (archivos : List String) (archivo : String)
    (rest : List String) :
    (archivo ∈ archivos → pd_read_json_lines parse (contenido archivo) = .ok [] →
      Event.logError archivo "vacio" ∈
        (cargar_archivos_en_tabla_temporal parse contenido loadOk archivos).events ∧
      (∀ rows, Event.insert archivo rows ∉
        (cargar_archivos_en_tabla_temporal parse contenido loadOk archivos).events)) ∧
    (terminaEn archivo "/" = false → terminaEn archivo ".json" = true →
      jsonLoads archivo = JsonLoadsR.okList [] → insertOk archivo = true →
      cargar_premium_go jsonLoads readTable insertOk (archivo :: rest) =
        ([.read archivo, .decodeAttempt archivo, .insert archivo [], .loadSuccess archivo] ++
          (cargar_premium_go jsonLoads readTable insertOk rest).1,
          (cargar_premium_go jsonLoads readTable insertOk rest).2)) := by
  constructor
  · intro hmem hd
    constructor
    · apply mem_go_of_mem_procesar parse contenido loadOk archivos archivo _ hmem
      rw [procesar_archivo_sin_registros parse contenido loadOk archivo hd]
      simp
    · intro rows hmem2
      obtain ⟨b, hb, hbe⟩ :=
        mem_cargar_archivos_go parse contenido loadOk archivos _ hmem2
      have hn := nombre_procesar_archivo parse contenido loadOk b _ hbe
      simp only [nombreDe] at hn
      subst hn
      rw [procesar_archivo_sin_registros parse contenido loadOk archivo hd] at hbe
      simp at hbe
  · intro h1 h2 h3 h4
    simp [cargar_premium_go, paso_premium, insertar_premium, h1, h2, h3, h4]

/-- Witness for C5 at one zero-record object on each path. -/
theorem carga_vacia_dos_politicas_witness :
    (Event.logError "v.json" "vacio" ∈
      (cargar_archivos_en_tabla_temporal (fun _ => some [("a", "1")]) (fun _ => [])
        (fun _ => true) ["v.json"]).events ∧
    Event.insert "v.json" [] ∉
      (cargar_archivos_en_tabla_temporal (fun _ => some [("a", "1")]) (fun _ => [])
        (fun _ => true) ["v.json"]).events) ∧
    cargar_premium_go (fun _ => JsonLoadsR.okList []) (fun _ => none) (fun _ => true)
      ["v.json"] =
      ([.read "v.json", .decodeAttempt "v.json", .insert "v.json" [], .loadSuccess "v.json"] ++
        (cargar_premium_go (fun _ => JsonLoadsR.okList []) (fun _ => none) (fun _ => true)
          []).1,
        (cargar_premium_go (fun _ => JsonLoadsR.okList []) (fun _ => none) (fun _ => true)
          []).2) :=
  ⟨⟨((carga_vacia_dos_politicas (fun _ => some [("a", "1")]) (fun _ => []) (fun _ => true)
      (fun _ => JsonLoadsR.okList []) (fun _ => none) (fun _ => true) ["v.json"] "v.json" []).1
      (by decide) rfl).1,
    ((carga_vacia_dos_politicas (fun _ => some [("a", "1")]) (fun _ => []) (fun _ => true)
      (fun _ => JsonLoadsR.okList []) (fun _ => none) (fun _ => true) ["v.json"] "v.json" []).1
      (by decide) rfl).2 []⟩,
    (carga_vacia_dos_politicas (fun _ => some [("a", "1")]) (fun _ => []) (fun _ => true)
      (fun _ => JsonLoadsR.okList []) (fun _ => none) (fun _ => true) ["v.json"] "v.json" []).2
      (by decide) (by decide) rfl rfl⟩

/-- C6 counterexample: on the premium path the first failing object aborts
its siblings: with malo.json failing to decode, bueno.json is never read
nor decoded and the error is re-raised to the caller. -/
theorem premium_aborta_hermanos :
    cargar_archivos_en_tabla_temporal_v_premium
      (fun a => if a = "malo.json" then JsonLoadsR.falla else JsonLoadsR.okList [[("x", "1")]])
      (fun _ => none) (fun _ => true) ["malo.json", "bueno.json"] =
      ⟨[.read "malo.json", .decodeAttempt "malo.json", .logError "malo.json" "json invalido"],
        some "json invalido"⟩ ∧
    Event.read "bueno.json" ∉
      (cargar_archivos_en_tabla_temporal_v_premium
        (fun a => if a = "malo.json" then JsonLoadsR.falla else JsonLoadsR.okList [[("x", "1")]])
        (fun _ => none) (fun _ => true) ["malo.json", "bueno.json"]).events ∧
    Event.decodeAttempt "bueno.json" ∉
      (cargar_archivos_en_tabla_temporal_v_premium
        (fun a => if a = "malo.json" then JsonLoadsR.falla else JsonLoadsR.okList [[("x", "1")]])
        (fun _ => none) (fun _ => true) ["malo.json", "bueno.json"]).events := by
  exact ⟨rfl, by decide, by decide⟩

/-- C6 (amended): on the plain path failures are isolated per object: every
listed object gets its decode attempted, the loader never propagates an
exception, and a decode failure is reported per object; on the premium
path the first object whose iteration raises makes the whole loader return
at once with that error, so the remaining objects are not attempted. -/
theorem aislamiento_de_fallos (parse : String → Option Record)
    (contenido : String → List String) (loadOk : String → Bool)
    (jsonLoads : String → JsonLoadsR) (readTable : String → Option (List Record))
    (insertOk : String → Bool) (archivos : List String) (archivo : String)
    (rest : List String) (evs : List Event) (err : String) :
    (archivo ∈ archivos →
      Event.decodeAttempt archivo ∈
        (cargar_archivos_en_tabla_temporal parse contenido loadOk archivos).events ∧
      (cargar_archivos_en_tabla_temporal parse contenido loadOk archivos).raised = none) ∧
    (∀ msg, archivo ∈ archivos → pd_read_json_lines parse (contenido archivo) = .error msg →
      Event.logError archivo "json" ∈
        (cargar_archivos_en_tabla_temporal parse contenido loadOk archivos).events) ∧
    (paso_premium jsonLoads readTable insertOk archivo = (evs, some err) →
      cargar_premium_go jsonLoads readTable insertOk (archivo :: rest) = (evs, some err)) := by
  refine ⟨?_, ?_, ?_⟩
  · intro hmem
    exact ⟨mem_go_of_mem_procesar parse contenido loadOk archivos archivo _ hmem
      (decode_mem_procesar_archivo parse contenido loadOk archivo), rfl⟩
  · intro msg hmem hd
    apply mem_go_of_mem_procesar parse contenido loadOk archivos archivo _ hmem
    rw [procesar_archivo_error_decodificacion parse contenido loadOk archivo msg hd]
    simp
  · intro hp
    simp [cargar_premium_go, hp]

/-- Witness for C6 at a failing object on each path. -/
theorem aislamiento_de_fallos_witness :
    (Event.decodeAttempt "a.json" ∈
      (cargar_archivos_en_tabla_temporal (fun _ => none) (fun _ => ["x"]) (fun _ => true)
        ["a.json"]).events ∧
    (cargar_archivos_en_tabla_temporal (fun _ => none) (fun _ => ["x"]) (fun _ => true)
      ["a.json"]).raised = none) ∧
    cargar_premium_go (fun _ => JsonLoadsR.falla) (fun _ => none) (fun _ => true)
      ["a.json", "b.json"] =
      ([.read "a.json", .decodeAttempt "a.json", .logError "a.json" "json invalido"],
        some "json invalido") :=
  ⟨(aislamiento_de_fallos (fun _ => none) (fun _ => ["x"]) (fun _ => true)
      (fun _ => JsonLoadsR.falla) (fun _ => none) (fun _ => true) ["a.json"] "a.json"
      ["b.json"] [.read "a.json", .decodeAttempt "a.json", .logError "a.json" "json invalido"]
      "json invalido").1 (by decide),
    (aislamiento_de_fallos (fun _ => none) (fun _ => ["x"]) (fun _ => true)
      (fun _ => JsonLoadsR.falla) (fun _ => none) (fun _ => true) ["a.json"] "a.json"
      ["b.json"] [.read "a.json", .decodeAttempt "a.json", .logError "a.json" "json invalido"]
      "json invalido").2.2 rfl⟩

/-- C7 counterexample: when the ledger insert reports errors, or the client
raises, registrar_archivos_en_bq only prints the error and returns
normally: no exception reaches the caller and the run is not aborted. -/
theorem registrar_errores_solo_imprime :
    registrar_archivos_en_bq "t0" (.ok ["boom"]) ["a.json"] =
      ([.ledgerInsert [("a.json", "t0")], .logError "registrar_archivos_en_bq" "insert"],
        none) ∧
    registrar_archivos_en_bq "t0" (.error "caida") ["a.json"] =
      ([.logError "registrar_archivos_en_bq" "caida"], none) := by
  exact ⟨rfl, rfl⟩

/-- C7 (amended): the ledger writer never propagates an error to the caller:
whatever the insert outcome, it returns normally; a client exception or a
nonempty insert-error list is reported only through a printed log message,
and on success it inserts one row per name carrying the shared
timestamp. -/
theorem registrar_no_aborta (now : String) (insertResult : Except String (List String))
    (archivos_nuevos : List String) :
    (registrar_archivos_en_bq now insertResult archivos_nuevos).2 = none ∧
    (∀ e, archivos_nuevos.isEmpty = false → insertResult = .error e →
      Event.logError "registrar_archivos_en_bq" e ∈
        (registrar_archivos_en_bq now insertResult archivos_nuevos).1) ∧
    (∀ errs, archivos_nuevos.isEmpty = false → insertResult = .ok errs →
      errs.isEmpty = false →
      Event.logError "registrar_archivos_en_bq" "insert" ∈
        (registrar_archivos_en_bq now insertResult archivos_nuevos).1) ∧
    (archivos_nuevos.isEmpty = false → insertResult = .ok [] →
      (registrar_archivos_en_bq now insertResult archivos_nuevos).1 =
        [.ledgerInsert (archivos_nuevos.map fun archivo => (archivo, now)), .logSuccess]) := by
  refine ⟨?_, ?_, ?_, ?_⟩
  · unfold registrar_archivos_en_bq
    by_cases hA : archivos_nuevos.isEmpty <;>
      simp only [hA, Bool.false_eq_true, if_true, if_false]
    · rcases insertResult with e | errs
      · rfl
      · by_cases hE : errs.isEmpty <;> simp [hE]
  · intro e hA hI
    subst hI
    simp [registrar_archivos_en_bq, hA]
  · intro errs hA hI hE
    subst hI
    simp [registrar_archivos_en_bq, hA, hE]
  · intro hA hI
    subst hI
    simp [registrar_archivos_en_bq, hA]

/-- Witness for C7 at a concrete failing insert. -/
theorem registrar_no_aborta_witness :
    (registrar_archivos_en_bq "t0" (.ok ["boom"]) ["a.json"]).2 = none ∧
    Event.logError "registrar_archivos_en_bq" "insert" ∈
      (registrar_archivos_en_bq "t0" (.ok ["boom"]) ["a.json"]).1 :=
  ⟨(registrar_no_aborta "t0" (.ok ["boom"]) ["a.json"]).1,
    (registrar_no_aborta "t0" (.ok ["boom"]) ["a.json"]).2.2.1 ["boom"] rfl rfl rfl⟩

/-- C8 counterexample: the plain loader does no suffix dispatch: an object
whose suffix is none of the supported formats is downloaded, decoded as
newline-delimited JSON and even loaded into the staging table, instead of
being skipped. -/
theorem plain_carga_formato_no_soportado :
    (cargar_archivos_en_tabla_temporal (fun linea => some [("campo", linea)])
      (fun _ => ["l1"]) (fun _ => true) ["datos.txt"]).events =
      [.read "datos.txt", .decodeAttempt "datos.txt",
        .insert "datos.txt" [[("campo", "l1")]], .loadSuccess "datos.txt"] ∧
    terminaEn "datos.txt" ".json" = false ∧ terminaEn "datos.txt" ".parquet" = false ∧
    terminaEn "datos.txt" ".pkl" = false := by
  exact ⟨rfl, by decide, by decide, by decide⟩

/-- C8 (amended): the premium loader skips an object with an unsupported
suffix with only a printed warning, without reading, decoding or loading
it, and the run continues unchanged with the remaining objects; the plain
loader instead attempts a JSON-lines decode of every object regardless of
suffix, though a failure there never makes the run fail. -/
theorem formato_no_soportado (jsonLoads : String → JsonLoadsR)
    (readTable : String → Option (List Record)) (insertOk : String → Bool)
    (parse : String → Option Record) (contenido : String → List String)
    (loadOk : String → Bool) (archivo : String) (rest archivos : List String) :
    (terminaEn archivo "/" = false → terminaEn archivo ".json" = false →
      terminaEn archivo ".parquet" = false → terminaEn archivo ".pkl" = false →
      paso_premium jsonLoads readTable insertOk archivo =
        ([.warnUnsupported archivo], none) ∧
      cargar_premium_go jsonLoads readTable insertOk (archivo :: rest) =
        (Event.warnUnsupported archivo ::
          (cargar_premium_go jsonLoads readTable insertOk rest).1,
          (cargar_premium_go jsonLoads readTable insertOk rest).2)) ∧
    ((cargar_archivos_en_tabla_temporal parse contenido loadOk archivos).raised = none ∧
      (archivo ∈ archivos → Event.decodeAttempt archivo ∈
        (cargar_archivos_en_tabla_temporal parse contenido loadOk archivos).events)) := by
  constructor
  · intro h1 h2 h3 h4
    have hp : paso_premium jsonLoads readTable insertOk archivo =
        ([.warnUnsupported archivo], none) := by
      simp [paso_premium, h1, h2, h3, h4]
    exact ⟨hp, by simp [cargar_premium_go, hp]⟩
  · exact ⟨rfl, fun hmem => mem_go_of_mem_procesar parse contenido loadOk archivos archivo _
      hmem (decode_mem_procesar_archivo parse contenido loadOk archivo)⟩

/-- Witness for C8 at a concrete unsupported object. -/
theorem formato_no_soportado_witness :
    (paso_premium (fun _ => JsonLoadsR.falla) (fun _ => none) (fun _ => true) "d.csv" =
      ([.warnUnsupported "d.csv"], none) ∧
    cargar_premium_go (fun _ => JsonLoadsR.falla) (fun _ => none) (fun _ => true) ["d.csv"] =
      (Event.warnUnsupported "d.csv" ::
        (cargar_premium_go (fun _ => JsonLoadsR.falla) (fun _ => none) (fun _ => true) []).1,
        (cargar_premium_go (fun _ => JsonLoadsR.falla) (fun _ => none) (fun _ => true) []).2)) ∧
    Event.decodeAttempt "d.csv" ∈
      (cargar_archivos_en_tabla_temporal (fun _ => none) (fun _ => ["x"]) (fun _ => true)
        ["d.csv"]).events :=
  ⟨(formato_no_soportado (fun _ => JsonLoadsR.falla) (fun _ => none) (fun _ => true)
      (fun _ => none) (fun _ => ["x"]) (fun _ => true) "d.csv" [] ["d.csv"]).1
      (by decide) (by decide) (by decide) (by decide),
    (formato_no_soportado (fun _ => JsonLoadsR.falla) (fun _ => none) (fun _ => true)
      (fun _ => none) (fun _ => ["x"]) (fun _ => true) "d.csv" [] ["d.csv"]).2.2 (by decide)⟩

/-- When every line of the payload parses, filterMap over the parser is the
map of the forced parses. -/
theorem filterMap_eq_map_getD (parse : String → Option Record) :
    ∀ (lineas : List String), (∀ l ∈ lineas, (parse l).isSome = true) →
      lineas.filterMap parse = lineas.map (fun l => (parse l).getD []) := by
  intro lineas
  induction lineas with
  | nil => intro h; rfl
  | cons a t ih =>
    intro h
    obtain ⟨b, hb⟩ := Option.isSome_iff_exists.mp (h a (by simp))
    simp [List.filterMap_cons, hb, ih (fun l hl => h l (by simp [hl]))]

/-- C9: decoding a well-formed newline-delimited JSON payload on the plain
path yields exactly one record per source line, the record at position i
being the JSON object parsed from line i. -/
theorem decodifica_ndjson_n_registros (parse : String → Option Record)
    (lineas : List String) (h : ∀ l ∈ lineas, (parse l).isSome = true) :
    ∃ rs : List Record, pd_read_json_lines parse lineas = .ok rs ∧
      rs.length = lineas.length ∧
      ∀ (i : Nat) (hi : i < lineas.length) (hr : i < rs.length),
        parse lineas[i] = some rs[i] := by
  have hall : lineas.all (fun linea => (parse linea).isSome) = true := by
    rw [List.all_eq_true]
    exact h
  have hmap := filterMap_eq_map_getD parse lineas h
  refine ⟨lineas.map (fun l => (parse l).getD []), ?_, by simp, ?_⟩
  · simp [pd_read_json_lines, hall, hmap]
  · intro i hi hr
    obtain ⟨b, hb⟩ := Option.isSome_iff_exists.mp (h lineas[i] (lineas.getElem_mem hi))
    simp [List.getElem_map, hb]

/-- Witness for C9 at a concrete two-line payload. -/
theorem decodifica_ndjson_n_registros_witness :
    ∃ rs : List Record,
      pd_read_json_lines (fun l => some [("linea", l)]) ["uno", "dos"] = .ok rs ∧
      rs.length = (["uno", "dos"] : List String).length ∧
      ∀ (i : Nat) (hi : i < (["uno", "dos"] : List String).length) (hr : i < rs.length),
        (fun l => some [("linea", l)]) (["uno", "dos"] : List String)[i] = some rs[i] :=
  decodifica_ndjson_n_registros (fun l => some [("linea", l)]) ["uno", "dos"] (by decide)

end ProyectoFinal
